import Mathlib

/-!
# Verification of the prod.bd tunnel multiplexer

A shallow embedding of the prod.bd source (Go CLI agent, Cloudflare Worker
edge) together with proofs about its behaviour.  The modelled components:

* the standard base64 codec shared by both ends of the tunnel
  (Go `encoding/base64` StdEncoding on the agent, `btoa`/`atob` on the edge),
  together with the edge's 8 KiB-chunked encoder from `ws-proxy.ts`;
* the agent's HTTP proxy `HandleRequest` from `internal/proxy/proxy.go`;
* the edge multiplexer state machine of `tunnel-do.ts` (`TunnelDO`):
  agent-socket table, visitor-socket table, pending-request table and the
  handlers that mutate them;
* the subdomain allocator and the offensive-word blocklist of the worker;
* the agent's local-WebSocket relay read-loop close message from
  `internal/proxy/wsrelay.go`.

JavaScript `Map`s are modelled as association lists whose mutators keep keys
unique; randomness (`Math.random`) is modelled as an explicit stream of
naturals; the local HTTP round-trip performed by the Go agent is modelled as
an oracle argument so that every failure shape of `client.Do` can be
analysed.
-/

namespace ProdBd

/-! ## Association-list maps (model of JS `Map` and Go `map`) -/

/-- `Map.get`: the value stored under `k`, if any. -/
def lookupKey {α : Type} : List (String × α) → String → Option α
  | [], _ => none
  | e :: rest, k => if e.1 = k then some e.2 else lookupKey rest k

/-- `Map.delete`: remove the entry stored under `k`. -/
def eraseKey {α : Type} : List (String × α) → String → List (String × α)
  | [], _ => []
  | e :: rest, k => if e.1 = k then eraseKey rest k else e :: eraseKey rest k

/-- `Map.set` / Go map assignment: replace any entry under `k` by `(k, v)`. -/
def setKey {α : Type} (l : List (String × α)) (k : String) (v : α) : List (String × α) :=
  eraseKey l k ++ [(k, v)]

theorem lookupKey_eraseKey_self {α : Type} (l : List (String × α)) (k : String) :
    lookupKey (eraseKey l k) k = none := by
  induction l with
  | nil => rfl
  | cons e rest ih =>
    by_cases h : e.1 = k
    · simpa [eraseKey, h] using ih
    · simpa [eraseKey, lookupKey, h] using ih

theorem lookupKey_eraseKey_ne {α : Type} (l : List (String × α)) (k k2 : String)
    (h : k2 ≠ k) : lookupKey (eraseKey l k) k2 = lookupKey l k2 := by
  induction l with
  | nil => rfl
  | cons e rest ih =>
    show lookupKey (if e.1 = k then eraseKey rest k else e :: eraseKey rest k) k2 =
      if e.1 = k2 then some e.2 else lookupKey rest k2
    by_cases he : e.1 = k
    · have hne : e.1 ≠ k2 := by rw [he]; exact fun hh => h hh.symm
      rw [if_pos he, if_neg hne, ih]
    · rw [if_neg he]
      show (if e.1 = k2 then some e.2 else lookupKey (eraseKey rest k) k2) =
        if e.1 = k2 then some e.2 else lookupKey rest k2
      rw [ih]

theorem lookupKey_setKey_self {α : Type} (l : List (String × α)) (k : String) (v : α) :
    lookupKey (setKey l k v) k = some v := by
  unfold setKey
  induction l with
  | nil => simp [lookupKey, eraseKey]
  | cons e rest ih =>
    by_cases he : e.1 = k
    · simpa [eraseKey, he] using ih
    · simpa [eraseKey, lookupKey, he] using ih

theorem lookupKey_setKey_ne {α : Type} (l : List (String × α)) (k k2 : String) (v : α)
    (h : k2 ≠ k) : lookupKey (setKey l k v) k2 = lookupKey l k2 := by
  unfold setKey
  induction l with
  | nil =>
    show (if k = k2 then some v else lookupKey [] k2) = lookupKey ([] : List (String × α)) k2
    rw [if_neg (fun hh => h hh.symm)]
  | cons e rest ih =>
    show lookupKey ((if e.1 = k then eraseKey rest k else e :: eraseKey rest k) ++ [(k, v)]) k2 =
      if e.1 = k2 then some e.2 else lookupKey rest k2
    by_cases he : e.1 = k
    · have hne : e.1 ≠ k2 := by rw [he]; exact fun hh => h hh.symm
      rw [if_pos he, if_neg hne, ih]
    · rw [if_neg he]
      show (if e.1 = k2 then some e.2 else lookupKey (eraseKey rest k ++ [(k, v)]) k2) =
        if e.1 = k2 then some e.2 else lookupKey rest k2
      rw [ih]

/-- A lookup miss means no entry of the list carries that key. -/
theorem lookupKey_none_iff {α : Type} (l : List (String × α)) (k : String) :
    lookupKey l k = none ↔ ∀ e ∈ l, e.1 ≠ k := by
  induction l with
  | nil => simp [lookupKey]
  | cons e rest ih =>
    by_cases he : e.1 = k
    · simp [lookupKey, he]
    · simp [lookupKey, he, ih]

/-! ## Base64 (RFC 4648 standard alphabet)

Both tunnel endpoints use the standard base64 codec with padding: the Go
agent through `encoding/base64` `StdEncoding`, the edge through `btoa` /
`atob`.  These are platform primitives, embedded here from their documented
behaviour: three input bytes map to four alphabet characters, a final one- or
two-byte group is padded with `=`. -/

def b64Alphabet : List Char :=
  "ABCDEFGHIJKLMNOPQRSTUVWXYZabcdefghijklmnopqrstuvwxyz0123456789+/".toList

/-- Character for a six-bit group. -/
def sextetChar (n : Nat) : Char := b64Alphabet.getD n 'A'

/-- Index of a character in the base64 alphabet (decoder side). -/
def sextetVal (c : Char) : Option Nat :=
  b64Alphabet.indexOf? c

/-- Standard base64 encoding of a byte list (each byte `< 256`). -/
def base64EncodeList : List Nat → List Char
  | [] => []
  | [a] => [sextetChar (a / 4), sextetChar (a % 4 * 16), '=', '=']
  | [a, b] => [sextetChar (a / 4), sextetChar (a % 4 * 16 + b / 16),
               sextetChar (b % 16 * 4), '=']
  | a :: b :: c :: rest =>
      sextetChar (a / 4) :: sextetChar (a % 4 * 16 + b / 16) ::
      sextetChar (b % 16 * 4 + c / 64) :: sextetChar (c % 64) ::
      base64EncodeList rest

/-- Standard base64 decoding of a padded character list. -/
def base64DecodeList : List Char → Option (List Nat)
  | [] => some []
  | c1 :: c2 :: c3 :: c4 :: rest =>
      match sextetVal c1, sextetVal c2 with
      | some s1, some s2 =>
        if c3 = '=' then
          if c4 = '=' ∧ rest = [] then some [s1 * 4 + s2 / 16] else none
        else
          match sextetVal c3 with
          | some s3 =>
            if c4 = '=' then
              if rest = [] then some [s1 * 4 + s2 / 16, s2 % 16 * 16 + s3 / 4]
              else none
            else
              match sextetVal c4 with
              | some s4 =>
                (base64DecodeList rest).map
                  (fun tail => (s1 * 4 + s2 / 16) :: (s2 % 16 * 16 + s3 / 4) ::
                               (s3 % 4 * 64 + s4) :: tail)
              | none => none
          | none => none
      | _, _ => none
  | _ => none

theorem sextetVal_sextetChar : ∀ n, n < 64 → sextetVal (sextetChar n) = some n := by
  decide

theorem sextetChar_ne_eq : ∀ n, n < 64 → sextetChar n ≠ '=' := by
  decide

theorem sextetChar_mem_alphabet : ∀ n, n < 64 → sextetChar n ∈ b64Alphabet := by
  decide

theorem sextetChar_mem (n : Nat) : sextetChar n ∈ b64Alphabet := by
  by_cases h : n < 64
  · exact sextetChar_mem_alphabet n h
  · have hlen : b64Alphabet.length ≤ n := by
      have : b64Alphabet.length = 64 := by decide
      omega
    rw [sextetChar, List.getD_eq_default _ _ hlen]
    decide

/-- Decoding inverts encoding on byte lists. -/
theorem base64_roundtrip (b : List Nat) (h : ∀ x ∈ b, x < 256) :
    base64DecodeList (base64EncodeList b) = some b := by
  induction b using base64EncodeList.induct with
  | case1 => rfl
  | case2 a =>
    have ha : a < 256 := h a (by simp)
    have h1 : a / 4 < 64 := by omega
    have h2 : a % 4 * 16 < 64 := by omega
    simp only [base64EncodeList, base64DecodeList,
      sextetVal_sextetChar _ h1, sextetVal_sextetChar _ h2]
    simp only [and_self, if_true, Option.some.injEq, List.cons.injEq, and_true]
    omega
  | case3 a b =>
    have ha : a < 256 := h a (by simp)
    have hb : b < 256 := h b (by simp)
    have h1 : a / 4 < 64 := by omega
    have h2 : a % 4 * 16 + b / 16 < 64 := by omega
    have h3 : b % 16 * 4 < 64 := by omega
    simp only [base64EncodeList, base64DecodeList,
      sextetVal_sextetChar _ h1, sextetVal_sextetChar _ h2, sextetVal_sextetChar _ h3,
      if_neg (sextetChar_ne_eq _ h3)]
    simp only [if_true, Option.some.injEq, List.cons.injEq, and_true]
    refine ⟨by omega, by omega⟩
  | case4 a b c rest ih =>
    have ha : a < 256 := h a (by simp)
    have hb : b < 256 := h b (by simp)
    have hc : c < 256 := h c (by simp)
    have hrest : ∀ x ∈ rest, x < 256 := fun x hx => h x (by simp [hx])
    have h1 : a / 4 < 64 := by omega
    have h2 : a % 4 * 16 + b / 16 < 64 := by omega
    have h3 : b % 16 * 4 + c / 64 < 64 := by omega
    have h4 : c % 64 < 64 := by omega
    simp only [base64EncodeList, base64DecodeList,
      sextetVal_sextetChar _ h1, sextetVal_sextetChar _ h2, sextetVal_sextetChar _ h3,
      sextetVal_sextetChar _ h4,
      if_neg (sextetChar_ne_eq _ h3), if_neg (sextetChar_ne_eq _ h4)]
    rw [ih hrest]
    simp only [Option.map_some', Option.some.injEq, List.cons.injEq, and_true]
    refine ⟨by omega, by omega, by omega⟩

/-- Every character the encoder emits is an alphabet character or padding. -/
theorem base64EncodeList_mem (b : List Nat) :
    ∀ c ∈ base64EncodeList b, c ∈ b64Alphabet ∨ c = '=' := by
  induction b using base64EncodeList.induct with
  | case1 => intro c hc; cases hc
  | case2 a =>
    intro c hc
    simp only [base64EncodeList, List.mem_cons, List.not_mem_nil, or_false] at hc
    rcases hc with h | h | h | h
    all_goals first
      | exact Or.inl (h ▸ sextetChar_mem _)
      | exact Or.inr h
  | case3 a b =>
    intro c hc
    simp only [base64EncodeList, List.mem_cons, List.not_mem_nil, or_false] at hc
    rcases hc with h | h | h | h
    all_goals first
      | exact Or.inl (h ▸ sextetChar_mem _)
      | exact Or.inr h
  | case4 a b c rest ih =>
    intro x hx
    simp only [base64EncodeList, List.mem_cons] at hx
    rcases hx with h | h | h | h | h
    · exact Or.inl (h ▸ sextetChar_mem _)
    · exact Or.inl (h ▸ sextetChar_mem _)
    · exact Or.inl (h ▸ sextetChar_mem _)
    · exact Or.inl (h ▸ sextetChar_mem _)
    · exact ih x h

/-- The edge builds the binary string for `btoa` in windows of 8192 input
bytes (`encodeBase64` in ws-proxy.ts); the concatenation of the windows is
the whole input. -/
def chunkedBinary (bytes : List Nat) : List Nat :=
  if h : bytes.isEmpty then [] else bytes.take 8192 ++ chunkedBinary (bytes.drop 8192)
termination_by bytes.length
decreasing_by
  have hne : bytes ≠ [] := by simpa [List.isEmpty_iff] using h
  have hpos : 0 < bytes.length := List.length_pos.mpr hne
  simp only [List.length_drop]
  omega

theorem chunkedBinary_eq (bytes : List Nat) : chunkedBinary bytes = bytes := by
  induction bytes using chunkedBinary.induct with
  | case1 bytes h =>
    rw [chunkedBinary, dif_pos h]
    exact (List.isEmpty_iff.mp h).symm
  | case2 bytes h ih =>
    rw [chunkedBinary, dif_neg h, ih, List.take_append_drop]

/-- `encodeBase64` of ws-proxy.ts: chunked binary-string construction
followed by `btoa`. -/
def encodeBase64 (bytes : List Nat) : List Char :=
  base64EncodeList (chunkedBinary bytes)

/-- C9: for every byte sequence `b`, decoding the tunnel's base64 encoding of
`b` (the edge's 8 KiB-chunked `encodeBase64` as decoded by the `atob`-based
path, which is the same standard codec the agent's `encoding/base64` uses)
returns exactly `b`, and the encoded string contains no newline or other
whitespace characters. -/
theorem c9_base64_roundtrip_no_whitespace (b : List Nat) (h : ∀ x ∈ b, x < 256) :
    base64DecodeList (encodeBase64 b) = some b ∧
    ∀ c ∈ encodeBase64 b, c ≠ ' ' ∧ c ≠ '\n' ∧ c ≠ '\r' ∧ c ≠ '\t' := by
  constructor
  · rw [encodeBase64, chunkedBinary_eq]
    exact base64_roundtrip b h
  · intro c hc
    rw [encodeBase64, chunkedBinary_eq] at hc
    rcases base64EncodeList_mem _ c hc with hmem | heq
    · have halpha : ∀ x ∈ b64Alphabet, x ≠ ' ' ∧ x ≠ '\n' ∧ x ≠ '\r' ∧ x ≠ '\t' := by
        decide
      exact halpha c hmem
    · subst heq
      decide

/-- Witness for C9 at the concrete bytes of the string "hi!". -/
theorem c9_base64_roundtrip_no_whitespace_witness :
    base64DecodeList (encodeBase64 [104, 105, 33]) = some [104, 105, 33] :=
  (c9_base64_roundtrip_no_whitespace [104, 105, 33] (by decide)).1

/-! ## The agent's HTTP proxy (`internal/proxy/proxy.go`, `HandleRequest`)

Wire types follow `internal/types`: a `TunnelRequest` / `TunnelResponse`
carries the `type` discriminator, the correlation `id`, multi-value headers
and a base64 `body`.  The local HTTP round-trip (`client.Do` plus
`io.ReadAll` of the response body) is modelled by an oracle
`LocalRequest → LocalOutcome`, exposing every failure shape of the source:
connection error and response-body read error.  `http.NewRequest` fails for
an invalid method token; the URL built from the edge-supplied path is
assumed parseable. -/

def typeHTTPRequest : String := "http-request"
def typeHTTPResponse : String := "http-response"
def typeWSFrame : String := "ws-frame"
def typeWSClose : String := "ws-close"

structure TunnelRequest where
  type : String
  id : String
  method : String
  path : String
  headers : List (String × List String)
  body : String
deriving DecidableEq

structure TunnelResponse where
  type : String
  id : String
  status : Nat
  headers : List (String × List String)
  body : String
deriving DecidableEq

/-- ASCII upper-casing of one byte, as Go's `textproto` does. -/
def asciiUpper (c : Char) : Char :=
  if 'a' ≤ c ∧ c ≤ 'z' then Char.ofNat (c.toNat - 32) else c

/-- ASCII lower-casing of one byte, as Go's `textproto` does. -/
def asciiLower (c : Char) : Char :=
  if 'A' ≤ c ∧ c ≤ 'Z' then Char.ofNat (c.toNat + 32) else c

/-- Valid HTTP header-field bytes (RFC token characters), as Go's
`validHeaderFieldByte`. -/
def isTokenChar (c : Char) : Bool :=
  c.isAlphanum || c == '!' || c == '#' || c == '$' || c == '%' || c == '&' ||
  c == Char.ofNat 39 || c == '*' || c == '+' || c == '-' || c == '.' ||
  c == '^' || c == '_' || c == Char.ofNat 96 || c == '|' || c == '~'

/-- MIME canonicalisation walk: upper-case the first byte and every byte
following a hyphen, lower-case the rest. -/
def canonicalChars : List Char → Bool → List Char
  | [], _ => []
  | c :: rest, upper =>
      (if upper then asciiUpper c else asciiLower c) :: canonicalChars rest (c == '-')

/-- Go's `http.CanonicalHeaderKey`: canonicalise when every byte is a valid
header-field byte, otherwise return the key unchanged. -/
def canonicalHeaderKey (k : String) : String :=
  if k.toList.all isTokenChar then String.mk (canonicalChars k.toList true) else k

/-- Go's `http.NewRequest` method validation (empty method defaults to GET). -/
def validMethod (m : String) : Bool :=
  m == "" || m.toList.all isTokenChar

/-- The header-copy loop of `HandleRequest` (proxy.go lines 49-58): assign
each key's values under the canonical key, skipping `Accept-Encoding`. -/
def copyRequestHeaders (hs : List (String × List String)) :
    List (String × List String) :=
  hs.foldl (fun acc kv =>
    if canonicalHeaderKey kv.1 = "Accept-Encoding" then acc
    else setKey acc (canonicalHeaderKey kv.1) kv.2) []

/-- The request handed to the local HTTP client. -/
structure LocalRequest where
  method : String
  path : String
  port : Nat
  headers : List (String × List String)
  host : String
  body : Option (List Nat)
deriving DecidableEq

/-- Outcome of the local round-trip: a full response (status, headers,
already-read body), a `client.Do` error, or an `io.ReadAll` error on the
response body. -/
inductive LocalOutcome where
  | success (status : Nat) (headers : List (String × List String)) (body : List Nat)
  | connectError (msg : String)
  | readBodyError
deriving DecidableEq

/-- UTF-8-agnostic byte view of an ASCII diagnostic string. -/
def strBytes (s : String) : List Nat := s.toList.map Char.toNat

def base64EncodeStr (b : List Nat) : String := String.mk (base64EncodeList b)

/-- The diagnostic body for a `client.Do` failure
(`"Failed to connect to local port %d: %v"`). -/
def connectFailBody (localPort : Nat) (msg : String) : String :=
  "Failed to connect to local port " ++ toString localPort ++ ": " ++ msg

def buildLocalRequest (req : TunnelRequest) (localPort : Nat)
    (bodyBytes : Option (List Nat)) : LocalRequest :=
  { method := req.method
    path := req.path
    port := localPort
    headers := copyRequestHeaders req.headers
    host := "localhost:" ++ toString localPort
    body := bodyBytes }

/-- The body-decoding block of `HandleRequest` (proxy.go lines 25-37): an
empty wire body means no local request body; otherwise base64-decode,
`none` signalling a decode failure. -/
def decodeBody (b : String) : Option (Option (List Nat)) :=
  if b = "" then some none
  else match base64DecodeList b.toList with
    | some d => some (some d)
    | none => none

/-- `HandleRequest` of proxy.go: decode the base64 body, build the local
request (copying headers minus `Accept-Encoding`, overriding Host), run the
local client, and either re-encode the response (dropping `Content-Encoding`
and `Content-Length`) or synthesize a 502. -/
def HandleRequest (req : TunnelRequest) (localPort : Nat)
    (clientDo : LocalRequest → LocalOutcome) : TunnelResponse :=
  match decodeBody req.body with
  | none =>
      { type := typeHTTPResponse, id := req.id, status := 502, headers := [],
        body := base64EncodeStr (strBytes "Invalid Request Body") }
  | some bodyBytes =>
    if validMethod req.method then
      match clientDo (buildLocalRequest req localPort bodyBytes) with
      | .connectError msg =>
          { type := typeHTTPResponse, id := req.id, status := 502, headers := [],
            body := base64EncodeStr (strBytes (connectFailBody localPort msg)) }
      | .readBodyError =>
          { type := typeHTTPResponse, id := req.id, status := 502, headers := [],
            body := "" }
      | .success st rh rb =>
          { type := typeHTTPResponse, id := req.id, status := st,
            headers := eraseKey (eraseKey rh "Content-Encoding") "Content-Length",
            body := base64EncodeStr rb }
    else
      { type := typeHTTPResponse, id := req.id, status := 502, headers := [],
        body := base64EncodeStr (strBytes "Failed to create request") }

theorem strBytes_append (a b : String) : strBytes (a ++ b) = strBytes a ++ strBytes b := by
  simp [strBytes]

/-- C10: the agent's HandleRequest is total — every path, including all
error paths, returns a TunnelResponse whose `id` equals the incoming
request's `id` (and whose `type` is http-response), so correlation is
preserved even for synthesized error responses. -/
theorem c10_handleRequest_total_preserves_id (req : TunnelRequest) (localPort : Nat)
    (clientDo : LocalRequest → LocalOutcome) :
    (HandleRequest req localPort clientDo).id = req.id ∧
    (HandleRequest req localPort clientDo).type = typeHTTPResponse := by
  unfold HandleRequest
  split
  · exact ⟨rfl, rfl⟩
  · split
    · split <;> exact ⟨rfl, rfl⟩
    · exact ⟨rfl, rfl⟩

/-- The header-copy loop never changes keys outside the canonical images of
the processed entries. -/
theorem copyRequestHeaders_foldl_notin (hs : List (String × List String))
    (acc : List (String × List String)) (key : String)
    (h : ∀ e ∈ hs, canonicalHeaderKey e.1 ≠ key) :
    lookupKey (hs.foldl (fun acc kv =>
      if canonicalHeaderKey kv.1 = "Accept-Encoding" then acc
      else setKey acc (canonicalHeaderKey kv.1) kv.2) acc) key = lookupKey acc key := by
  induction hs generalizing acc with
  | nil => rfl
  | cons e rest ih =>
    simp only [List.foldl_cons]
    by_cases hc : canonicalHeaderKey e.1 = "Accept-Encoding"
    · rw [if_pos hc]
      exact ih _ (fun x hx => h x (List.mem_cons_of_mem _ hx))
    · rw [if_neg hc, ih _ (fun x hx => h x (List.mem_cons_of_mem _ hx))]
      exact lookupKey_setKey_ne _ _ _ _
        (fun heq => (h e (List.mem_cons_self _ _)) heq.symm)

/-- The header-copy loop never creates an `Accept-Encoding` entry. -/
theorem copyRequestHeaders_foldl_no_AE (hs : List (String × List String))
    (acc : List (String × List String))
    (h : lookupKey acc "Accept-Encoding" = none) :
    lookupKey (hs.foldl (fun acc kv =>
      if canonicalHeaderKey kv.1 = "Accept-Encoding" then acc
      else setKey acc (canonicalHeaderKey kv.1) kv.2) acc) "Accept-Encoding" = none := by
  induction hs generalizing acc with
  | nil => exact h
  | cons e rest ih =>
    simp only [List.foldl_cons]
    by_cases hc : canonicalHeaderKey e.1 = "Accept-Encoding"
    · rw [if_pos hc]
      exact ih _ h
    · rw [if_neg hc]
      refine ih _ ?_
      rw [lookupKey_setKey_ne _ _ _ _ (fun heq => hc heq.symm)]
      exact h

theorem copyRequestHeaders_no_AE (hs : List (String × List String)) :
    lookupKey (copyRequestHeaders hs) "Accept-Encoding" = none :=
  copyRequestHeaders_foldl_no_AE hs [] rfl

/-- Every non-`Accept-Encoding` entry survives the copy under its canonical
key, provided the canonical keys of the input do not collide. -/
theorem copyRequestHeaders_mem (hs : List (String × List String))
    (hnodup : (hs.map (fun e => canonicalHeaderKey e.1)).Nodup) :
    ∀ k v, (k, v) ∈ hs → canonicalHeaderKey k ≠ "Accept-Encoding" →
      lookupKey (copyRequestHeaders hs) (canonicalHeaderKey k) = some v := by
  unfold copyRequestHeaders
  suffices hgen : ∀ acc, ∀ k v, (k, v) ∈ hs → canonicalHeaderKey k ≠ "Accept-Encoding" →
      lookupKey (hs.foldl (fun acc kv =>
        if canonicalHeaderKey kv.1 = "Accept-Encoding" then acc
        else setKey acc (canonicalHeaderKey kv.1) kv.2) acc) (canonicalHeaderKey k) = some v by
    exact hgen []
  induction hs with
  | nil => intro acc k v hmem; cases hmem
  | cons e rest ih =>
    intro acc k v hmem hk
    have hnodup1 : canonicalHeaderKey e.1 ∉ rest.map (fun x => canonicalHeaderKey x.1) :=
      (List.nodup_cons.mp (by simpa using hnodup)).1
    have hnodup2 : (rest.map (fun x => canonicalHeaderKey x.1)).Nodup :=
      (List.nodup_cons.mp (by simpa using hnodup)).2
    rcases List.mem_cons.mp hmem with heq | hrest
    · cases heq
      simp only [List.foldl_cons]
      rw [if_neg hk]
      rw [copyRequestHeaders_foldl_notin rest _ _
        (fun x hx hcx => hnodup1 (by rw [← hcx]; exact List.mem_map_of_mem _ hx))]
      exact lookupKey_setKey_self _ _ _
    · simp only [List.foldl_cons]
      by_cases hc : canonicalHeaderKey e.1 = "Accept-Encoding"
      · rw [if_pos hc]
        exact ih hnodup2 _ k v hrest hk
      · rw [if_neg hc]
        exact ih hnodup2 _ k v hrest hk

/-- C4: the visitor's Accept-Encoding header is not copied onto the local
request while all other headers are copied under their canonical key
(assuming no two keys canonicalise to the same name), and for a successful
local response the Content-Encoding and Content-Length headers are removed
from the returned header map while all others are preserved. -/
theorem c4_header_stripping (req : TunnelRequest) (localPort : Nat) (st : Nat)
    (rh : List (String × List String)) (rb : List Nat)
    (hnodup : (req.headers.map (fun e => canonicalHeaderKey e.1)).Nodup) :
    lookupKey (copyRequestHeaders req.headers) "Accept-Encoding" = none ∧
    (∀ k v, (k, v) ∈ req.headers → canonicalHeaderKey k ≠ "Accept-Encoding" →
      lookupKey (copyRequestHeaders req.headers) (canonicalHeaderKey k) = some v) ∧
    (∀ bodyBytes, (buildLocalRequest req localPort bodyBytes).headers =
      copyRequestHeaders req.headers) ∧
    (req.body = "" → validMethod req.method = true →
      (HandleRequest req localPort (fun _ => LocalOutcome.success st rh rb)).headers =
        eraseKey (eraseKey rh "Content-Encoding") "Content-Length") ∧
    lookupKey (eraseKey (eraseKey rh "Content-Encoding") "Content-Length")
      "Content-Encoding" = none ∧
    lookupKey (eraseKey (eraseKey rh "Content-Encoding") "Content-Length")
      "Content-Length" = none ∧
    (∀ k2, k2 ≠ "Content-Encoding" → k2 ≠ "Content-Length" →
      lookupKey (eraseKey (eraseKey rh "Content-Encoding") "Content-Length") k2 =
        lookupKey rh k2) := by
  refine ⟨copyRequestHeaders_no_AE _, copyRequestHeaders_mem _ hnodup,
    fun _ => rfl, ?_, ?_, ?_, ?_⟩
  · intro h1 h2
    simp [HandleRequest, decodeBody, h1, h2]
  · rw [lookupKey_eraseKey_ne _ _ _ (by decide)]
    exact lookupKey_eraseKey_self _ _
  · exact lookupKey_eraseKey_self _ _
  · intro k2 hce hcl
    rw [lookupKey_eraseKey_ne _ _ _ hcl, lookupKey_eraseKey_ne _ _ _ hce]

/-- Witness for C4 at a concrete request and local response. -/
theorem c4_header_stripping_witness :
    lookupKey (copyRequestHeaders [("accept-encoding", [" gzip"]), ("x-k", ["v1"])])
      "Accept-Encoding" = none ∧
    lookupKey (eraseKey (eraseKey [("Content-Encoding", [" gzip"]), ("X-K", ["v1"])]
      "Content-Encoding") "Content-Length") "Content-Encoding" = none := by
  have h := c4_header_stripping
    { type := "http-request", id := "r1", method := "GET", path := "/",
      headers := [("accept-encoding", [" gzip"]), ("x-k", ["v1"])], body := "" }
    3000 200 [("Content-Encoding", [" gzip"]), ("X-K", ["v1"])] [] (by decide)
  exact ⟨h.1, h.2.2.2.2.1⟩

/-- C5 counterexample: when reading the local response body fails,
HandleRequest returns a 502 whose body is empty — not a 502 whose body
contains a short diagnostic, as the claim states for every failure path. -/
theorem c5_counterexample :
    (HandleRequest
      { type := "http-request", id := "r1", method := "GET", path := "/",
        headers := [], body := "" }
      5173 (fun _ => LocalOutcome.readBodyError)).status = 502 ∧
    (HandleRequest
      { type := "http-request", id := "r1", method := "GET", path := "/",
        headers := [], body := "" }
      5173 (fun _ => LocalOutcome.readBodyError)).body = "" :=
  ⟨rfl, rfl⟩

/-- C5 (amended): every failure of HandleRequest — body-decode failure,
request-build failure, connection failure, response-body read failure — is
reported as an http-response with status 502 and never propagates an error;
the decode, build and connect failures carry a short diagnostic body, and
the connect-failure body begins with "Failed to connect to local port",
while the response-body read failure alone returns the 502 with an empty
body. -/
theorem c5_failures_yield_502 :
    (∀ (req : TunnelRequest) (localPort : Nat) (clientDo : LocalRequest → LocalOutcome),
      req.body ≠ "" → base64DecodeList req.body.toList = none →
      (HandleRequest req localPort clientDo).status = 502 ∧
      (HandleRequest req localPort clientDo).body =
        base64EncodeStr (strBytes "Invalid Request Body")) ∧
    (∀ (req : TunnelRequest) (localPort : Nat) (clientDo : LocalRequest → LocalOutcome),
      req.body = "" → validMethod req.method = false →
      (HandleRequest req localPort clientDo).status = 502 ∧
      (HandleRequest req localPort clientDo).body =
        base64EncodeStr (strBytes "Failed to create request")) ∧
    (∀ (req : TunnelRequest) (localPort : Nat) (msg : String),
      req.body = "" → validMethod req.method = true →
      (HandleRequest req localPort (fun _ => LocalOutcome.connectError msg)).status = 502 ∧
      (HandleRequest req localPort (fun _ => LocalOutcome.connectError msg)).body =
        base64EncodeStr (strBytes (connectFailBody localPort msg)) ∧
      ∃ tail, strBytes (connectFailBody localPort msg) =
        strBytes "Failed to connect to local port" ++ tail) ∧
    (∀ (req : TunnelRequest) (localPort : Nat),
      req.body = "" → validMethod req.method = true →
      (HandleRequest req localPort (fun _ => LocalOutcome.readBodyError)).status = 502 ∧
      (HandleRequest req localPort (fun _ => LocalOutcome.readBodyError)).body = "") := by
  refine ⟨?_, ?_, ?_, ?_⟩
  · intro req localPort clientDo h1 h2
    simp only [String.toList] at h2
    constructor <;> simp [HandleRequest, decodeBody, h1, h2]
  · intro req localPort clientDo h1 h2
    constructor <;> simp [HandleRequest, decodeBody, h1, h2]
  · intro req localPort msg h1 h2
    refine ⟨by simp [HandleRequest, decodeBody, h1, h2],
      by simp [HandleRequest, decodeBody, h1, h2], ?_⟩
    refine ⟨strBytes (" " ++ toString localPort ++ ": " ++ msg), ?_⟩
    have h0 : ("Failed to connect to local port " : String) =
        "Failed to connect to local port" ++ " " := by decide
    rw [connectFailBody, h0]
    rw [String.append_assoc, String.append_assoc, String.append_assoc]
    rw [strBytes_append]
    simp [String.append_assoc]
  · intro req localPort h1 h2
    constructor <;> simp [HandleRequest, decodeBody, h1, h2]

/-- Witness for C5 at concrete failing inputs. -/
theorem c5_failures_yield_502_witness :
    (HandleRequest
      { type := "http-request", id := "r2", method := "GET", path := "/",
        headers := [], body := "" }
      3000 (fun _ => LocalOutcome.connectError "connection refused")).status = 502 ∧
    (HandleRequest
      { type := "http-request", id := "r3", method := "GET", path := "/",
        headers := [], body := "!!" }
      3000 (fun _ => LocalOutcome.readBodyError)).status = 502 := by
  constructor
  · exact (c5_failures_yield_502.2.2.1
      { type := "http-request", id := "r2", method := "GET", path := "/",
        headers := [], body := "" }
      3000 "connection refused" rfl (by decide)).1
  · exact (c5_failures_yield_502.1
      { type := "http-request", id := "r3", method := "GET", path := "/",
        headers := [], body := "!!" }
      3000 (fun _ => LocalOutcome.readBodyError) (by decide) (by decide)).1

/-! ## The edge multiplexer (`tunnel-do.ts`, class `TunnelDO`)

The durable object owns three tables: `tunnels` (subdomain → agent
socket), `visitorSockets` (sessionId → visitor socket, whose serialized
attachment carries its subdomain) and `pendingRequests` (reqId →
subdomain plus the promise resolvers).  Sockets are identified by
naturals.  The promise resolutions, socket closes and frame deliveries a
handler performs are collected in an `Output` list; the armed `setTimeout`
timers are part of the state so that `clearTimeout` is modelled (a timeout
callback can only run while its timer is armed). -/

/-- How a pending request's promise is settled. -/
inductive Resolution where
  | response        -- an http-response message arrived and was delivered
  | timeout504      -- the 30 s timer fired: 504 Gateway Timeout
  | tunnelClosed502 -- rejected on agent close: 502 Tunnel Error
  | wsError502      -- rejected on agent error: 502 Tunnel Error
  | sendFail502     -- ws.send threw synchronously: 502 Tunnel disconnected during request
deriving DecidableEq

/-- Externally visible effects of one handler invocation. -/
inductive Output where
  | resolveHTTP (reqId : String) (res : Resolution)
  | closeVisitor (sessionId : String) (code : Nat) (reason : String)
  | deliverFrame (sessionId : String)
  | notifyAgentClose (sessionId : String) (code : Nat) (reason : String)
  | closeSocket (sock : Nat) (code : Nat) (reason : String)
deriving DecidableEq

structure MuxState where
  tunnels : List (String × Nat)
  visitorSockets : List (String × String)
  pendingRequests : List (String × String)
  timers : List String
deriving DecidableEq

/-- `handleTunnelMessage`, http-response case (tunnel-do.ts lines 175-181):
resolve and delete the pending entry when present (the resolver clears the
timeout), silently drop the message otherwise. -/
def handleHTTPResponse (st : MuxState) (id : String) : MuxState × List Output :=
  match lookupKey st.pendingRequests id with
  | some _ =>
      ({ st with pendingRequests := eraseKey st.pendingRequests id,
                 timers := st.timers.filter (fun t => t != id) },
       [Output.resolveHTTP id Resolution.response])
  | none => (st, [])

/-- `handleTunnelMessage`, ws-frame case (lines 183-189): deliver to the
visitor when present. -/
def handleWSFrame (st : MuxState) (id : String) : MuxState × List Output :=
  match lookupKey st.visitorSockets id with
  | some _ => (st, [Output.deliverFrame id])
  | none => (st, [])

/-- `handleTunnelMessage`, ws-close case (lines 190-198); `none` stands for
a JS-falsy `code` / `reason`, defaulted to 1000 / the empty string. -/
def handleWSCloseMsg (st : MuxState) (id : String) (code : Option Nat)
    (reason : Option String) : MuxState × List Output :=
  match lookupKey st.visitorSockets id with
  | some _ =>
      ({ st with visitorSockets := eraseKey st.visitorSockets id },
       [Output.closeVisitor id (code.getD 1000) (reason.getD "")])
  | none => (st, [])

/-- The 30 s timeout callback armed in `proxyHTTPRequest` (lines 285-288):
delete the entry and resolve 504.  The guard models `clearTimeout`: the
callback runs only while its timer is armed. -/
def timeoutFire (st : MuxState) (id : String) : MuxState × List Output :=
  if st.timers.contains id then
    ({ st with pendingRequests := eraseKey st.pendingRequests id,
               timers := st.timers.filter (fun t => t != id) },
     [Output.resolveHTTP id Resolution.timeout504])
  else (st, [])

/-- The registration block of `proxyHTTPRequest` (lines 284-322): arm the
timer, insert the pending entry, send the envelope; a synchronous send
failure deletes the entry, clears the timer and resolves 502. -/
def registerPending (st : MuxState) (id sub : String) (sendOk : Bool) :
    MuxState × List Output :=
  let st1 := { st with timers := st.timers ++ [id],
                       pendingRequests := setKey st.pendingRequests id sub }
  if sendOk then (st1, [])
  else ({ st1 with pendingRequests := eraseKey st1.pendingRequests id,
                   timers := st1.timers.filter (fun t => t != id) },
        [Output.resolveHTTP id Resolution.sendFail502])

/-- `webSocketClose` for a socket carrying a tunnel attachment (lines 202-203
and 220-237): echo the close on the socket, drop the subdomain from the
agent table, reject (and remove) every pending request of that subdomain,
and close with 1001 "Tunnel disconnected" (and remove) every visitor whose
attachment subdomain matches. -/
def webSocketCloseTunnel (st : MuxState) (sock : Nat) (sub : String)
    (code : Nat) (reason : String) : MuxState × List Output :=
  let rejected := st.pendingRequests.filter (fun e => e.2 == sub)
  let closed := st.visitorSockets.filter (fun v => v.2 == sub)
  ({ tunnels := eraseKey st.tunnels sub,
     visitorSockets := st.visitorSockets.filter (fun v => v.2 != sub),
     pendingRequests := st.pendingRequests.filter (fun e => e.2 != sub),
     timers := st.timers.filter (fun t => !((rejected.map (fun e => e.1)).contains t)) },
   Output.closeSocket sock code reason ::
     rejected.map (fun e => Output.resolveHTTP e.1 Resolution.tunnelClosed502) ++
     closed.map (fun v => Output.closeVisitor v.1 1001 "Tunnel disconnected"))

/-- `webSocketClose` for a socket carrying a visitor attachment (lines
202-217): remove the visitor and best-effort notify the agent. -/
def webSocketCloseVisitor (st : MuxState) (sock : Nat) (sess sub : String)
    (code : Nat) (reason : String) : MuxState × List Output :=
  ({ st with visitorSockets := eraseKey st.visitorSockets sess },
   Output.closeSocket sock code reason ::
     (match lookupKey st.tunnels sub with
      | some _ => [Output.notifyAgentClose sess code reason]
      | none => []))

/-- `webSocketError` for a tunnel attachment (lines 240-241 and 250-263):
drop the subdomain, reject (and remove) its pending requests, close the
errored socket with 1011.  The visitor table is not touched. -/
def webSocketErrorTunnel (st : MuxState) (sock : Nat) (sub : String) :
    MuxState × List Output :=
  let rejected := st.pendingRequests.filter (fun e => e.2 == sub)
  ({ st with tunnels := eraseKey st.tunnels sub,
             pendingRequests := st.pendingRequests.filter (fun e => e.2 != sub),
             timers := st.timers.filter (fun t => !((rejected.map (fun e => e.1)).contains t)) },
   rejected.map (fun e => Output.resolveHTTP e.1 Resolution.wsError502) ++
     [Output.closeSocket sock 1011 "WebSocket error"])

/-- `webSocketError` for a visitor attachment (lines 244-248). -/
def webSocketErrorVisitor (st : MuxState) (sock : Nat) (sess : String) :
    MuxState × List Output :=
  ({ st with visitorSockets := eraseKey st.visitorSockets sess },
   [Output.closeSocket sock 1011 "WebSocket error"])

/-- Steps of `handleTunnelUpgrade` (lines 99-120), in program order. -/
inductive UpgradeAction where
  | closeSocket (sock : Nat) (code : Nat) (reason : String)
  | evict (sub : String)
  | accept (sock : Nat)
  | setAttachment (sock : Nat) (sub : String)
  | registerSocket (sub : String) (sock : Nat)
deriving DecidableEq

/-- `handleTunnelUpgrade` (lines 99-120) on the agent table: when the
subdomain is occupied, close the old socket with 1000 "New connection
replacing old one" and evict it, then accept the server half, persist the
attachment and insert the new socket. -/
def handleTunnelUpgrade (tunnels : List (String × Nat)) (sub : String)
    (newSock : Nat) : List (String × Nat) × List UpgradeAction :=
  match lookupKey tunnels sub with
  | some old =>
      (setKey (eraseKey tunnels sub) sub newSock,
       [UpgradeAction.closeSocket old 1000 "New connection replacing old one",
        UpgradeAction.evict sub,
        UpgradeAction.accept newSock,
        UpgradeAction.setAttachment newSock sub,
        UpgradeAction.registerSocket sub newSock])
  | none =>
      (setKey tunnels sub newSock,
       [UpgradeAction.accept newSock,
        UpgradeAction.setAttachment newSock sub,
        UpgradeAction.registerSocket sub newSock])

/-- The events the durable-object runtime can deliver to the multiplexer
(run-to-completion, one at a time). -/
inductive MuxEvent where
  | httpResponseMsg (id : String)
  | wsFrameMsg (id : String)
  | wsCloseMsg (id : String) (code : Option Nat) (reason : Option String)
  | timerFires (id : String)
  | visitorHTTP (id sub : String) (sendOk : Bool)
  | agentClosed (sock : Nat) (sub : String) (code : Nat) (reason : String)
  | agentErrored (sock : Nat) (sub : String)
  | visitorClosed (sock : Nat) (sess sub : String) (code : Nat) (reason : String)
  | visitorErrored (sock : Nat) (sess : String)
deriving DecidableEq

def muxStep (st : MuxState) : MuxEvent → MuxState × List Output
  | .httpResponseMsg id => handleHTTPResponse st id
  | .wsFrameMsg id => handleWSFrame st id
  | .wsCloseMsg id code reason => handleWSCloseMsg st id code reason
  | .timerFires id => timeoutFire st id
  | .visitorHTTP id sub sendOk => registerPending st id sub sendOk
  | .agentClosed sock sub code reason => webSocketCloseTunnel st sock sub code reason
  | .agentErrored sock sub => webSocketErrorTunnel st sock sub
  | .visitorClosed sock sess sub code reason => webSocketCloseVisitor st sock sess sub code reason
  | .visitorErrored sock sess => webSocketErrorVisitor st sock sess

def muxRun (st : MuxState) : List MuxEvent → MuxState × List Output
  | [] => (st, [])
  | e :: es =>
      let r1 := muxStep st e
      let r2 := muxRun r1.1 es
      (r2.1, r1.2 ++ r2.2)

/-! ### Association-list facts used by the multiplexer proofs -/

theorem eraseKey_eq_filter {α : Type} (l : List (String × α)) (k : String) :
    eraseKey l k = l.filter (fun e => e.1 != k) := by
  induction l with
  | nil => rfl
  | cons e rest ih =>
    by_cases he : e.1 = k
    · simp [eraseKey, List.filter_cons, he, ih]
    · simp [eraseKey, List.filter_cons, he, ih, bne]

/-- Number of entries stored under a key. -/
def countKey {α : Type} (l : List (String × α)) (k : String) : Nat :=
  (l.filter (fun e => e.1 == k)).length

theorem countKey_eraseKey_self {α : Type} (l : List (String × α)) (k : String) :
    countKey (eraseKey l k) k = 0 := by
  induction l with
  | nil => rfl
  | cons e rest ih =>
    by_cases he : e.1 = k
    · simpa [eraseKey, he] using ih
    · simpa [eraseKey, countKey, List.filter, he] using ih

theorem countKey_setKey_self {α : Type} (l : List (String × α)) (k : String) (v : α) :
    countKey (setKey l k v) k = 1 := by
  have h := countKey_eraseKey_self l k
  simp only [countKey, setKey, List.filter_append] at *
  simp [h, List.length_eq_zero.mp h]

theorem notMem_keys_eraseKey {α : Type} (l : List (String × α)) (k : String) :
    k ∉ (eraseKey l k).map Prod.fst := by
  intro hmem
  rcases List.mem_map.mp hmem with ⟨e, he, hfst⟩
  exact ((lookupKey_none_iff _ _).mp (lookupKey_eraseKey_self l k) e he) hfst

theorem nodupKeys_eraseKey {α : Type} (l : List (String × α)) (k : String)
    (h : (l.map Prod.fst).Nodup) : ((eraseKey l k).map Prod.fst).Nodup := by
  rw [eraseKey_eq_filter]
  exact h.sublist ((List.filter_sublist l).map Prod.fst)

theorem nodupKeys_setKey {α : Type} (l : List (String × α)) (k : String) (v : α)
    (h : (l.map Prod.fst).Nodup) : ((setKey l k v).map Prod.fst).Nodup := by
  rw [setKey, List.map_append]
  rw [List.nodup_append]
  refine ⟨nodupKeys_eraseKey l k h, by simp, ?_⟩
  intro a ha hb
  simp only [List.map_cons, List.map_nil, List.mem_singleton] at hb
  exact notMem_keys_eraseKey l k (hb ▸ ha)

theorem lookupKey_some_mem {α : Type} (l : List (String × α)) (k : String) (v : α)
    (h : lookupKey l k = some v) : (k, v) ∈ l := by
  induction l with
  | nil => cases h
  | cons e rest ih =>
    by_cases he : e.1 = k
    · rw [lookupKey, if_pos he] at h
      obtain ⟨f, s⟩ := e
      simp only at he h
      injection h with h2
      subst h2
      subst he
      exact List.mem_cons_self _ _
    · rw [lookupKey, if_neg he] at h
      exact List.mem_cons_of_mem _ (ih h)

theorem nodupKeys_value_unique {α : Type} (l : List (String × α))
    (h : (l.map Prod.fst).Nodup) (e1 e2 : String × α)
    (h1 : e1 ∈ l) (h2 : e2 ∈ l) (heq : e1.1 = e2.1) : e1 = e2 := by
  induction l with
  | nil => cases h1
  | cons x rest ih =>
    have hx : x.1 ∉ rest.map Prod.fst := (List.nodup_cons.mp (by simpa using h)).1
    have hrest : (rest.map Prod.fst).Nodup := (List.nodup_cons.mp (by simpa using h)).2
    rcases List.mem_cons.mp h1 with rfl | h1t
    · rcases List.mem_cons.mp h2 with rfl | h2t
      · rfl
      · exact absurd (heq ▸ List.mem_map_of_mem Prod.fst h2t) hx
    · rcases List.mem_cons.mp h2 with rfl | h2t
      · exact absurd (heq ▸ List.mem_map_of_mem Prod.fst h1t) hx
      · exact ih hrest h1t h2t

theorem lookupKey_filter_none {α : Type} (l : List (String × α)) (k : String)
    (p : String × α → Bool) (h : lookupKey l k = none) :
    lookupKey (l.filter p) k = none := by
  rw [lookupKey_none_iff] at h ⊢
  exact fun e he => h e (List.mem_of_mem_filter he)

/-- C2: on an agent upgrade for an occupied subdomain, the old socket is
closed with code 1000 "New connection replacing old one" and evicted
strictly before the new socket is accepted and registered (the emitted
action sequence is exactly close, evict, accept, persist-attachment,
register); afterwards the table maps the subdomain to the new socket alone,
so it keeps at most one agent socket per subdomain. -/
theorem c2_agent_socket_replacement (tunnels : List (String × Nat)) (sub : String)
    (newSock : Nat) (hnodup : (tunnels.map Prod.fst).Nodup) :
    (∀ old, lookupKey tunnels sub = some old →
      (handleTunnelUpgrade tunnels sub newSock).2 =
        [UpgradeAction.closeSocket old 1000 "New connection replacing old one",
         UpgradeAction.evict sub,
         UpgradeAction.accept newSock,
         UpgradeAction.setAttachment newSock sub,
         UpgradeAction.registerSocket sub newSock]) ∧
    (lookupKey tunnels sub = none →
      (handleTunnelUpgrade tunnels sub newSock).2 =
        [UpgradeAction.accept newSock,
         UpgradeAction.setAttachment newSock sub,
         UpgradeAction.registerSocket sub newSock]) ∧
    lookupKey (handleTunnelUpgrade tunnels sub newSock).1 sub = some newSock ∧
    countKey (handleTunnelUpgrade tunnels sub newSock).1 sub = 1 ∧
    ((handleTunnelUpgrade tunnels sub newSock).1.map Prod.fst).Nodup := by
  cases hm : lookupKey tunnels sub with
  | some old =>
    refine ⟨?_, ?_, ?_, ?_, ?_⟩
    · intro old2 h2
      injection h2 with h3
      subst h3
      simp [handleTunnelUpgrade, hm]
    · intro h2
      simp at h2
    · simp only [handleTunnelUpgrade, hm]
      exact lookupKey_setKey_self _ _ _
    · simp only [handleTunnelUpgrade, hm]
      exact countKey_setKey_self _ _ _
    · simp only [handleTunnelUpgrade, hm]
      exact nodupKeys_setKey _ _ _ (nodupKeys_eraseKey _ _ hnodup)
  | none =>
    refine ⟨?_, ?_, ?_, ?_, ?_⟩
    · intro old2 h2
      simp at h2
    · intro _
      simp [handleTunnelUpgrade, hm]
    · simp only [handleTunnelUpgrade, hm]
      exact lookupKey_setKey_self _ _ _
    · simp only [handleTunnelUpgrade, hm]
      exact countKey_setKey_self _ _ _
    · simp only [handleTunnelUpgrade, hm]
      exact nodupKeys_setKey _ _ _ hnodup

/-- Witness for C2: replacing the agent for subdomain "s". -/
theorem c2_agent_socket_replacement_witness :
    (handleTunnelUpgrade [("s", 7)] "s" 9).2 =
      [UpgradeAction.closeSocket 7 1000 "New connection replacing old one",
       UpgradeAction.evict "s",
       UpgradeAction.accept 9,
       UpgradeAction.setAttachment 9 "s",
       UpgradeAction.registerSocket "s" 9] ∧
    lookupKey (handleTunnelUpgrade [("s", 7)] "s" 9).1 "s" = some 9 := by
  have h := c2_agent_socket_replacement [("s", 7)] "s" 9 (by decide)
  exact ⟨h.1 7 (by decide), h.2.2.1⟩

/-- C3 counterexample: agent-socket *error* for subdomain "s" with one
visitor attached to "s": `webSocketError` leaves the visitor in the table
and emits no 1001 "Tunnel disconnected" close for it, contrary to the
claim's error branch. -/
theorem c3_counterexample :
    ((webSocketErrorTunnel
        { tunnels := [("s", 7)], visitorSockets := [("v1", "s")],
          pendingRequests := [], timers := [] } 7 "s").1).visitorSockets =
      [("v1", "s")] ∧
    Output.closeVisitor "v1" 1001 "Tunnel disconnected" ∉
      (webSocketErrorTunnel
        { tunnels := [("s", 7)], visitorSockets := [("v1", "s")],
          pendingRequests := [], timers := [] } 7 "s").2 := by
  decide

/-- C3 (amended): on *close* of the agent socket for subdomain s the edge
deletes s from the agent table, rejects (502) and removes every pending
request of s, and closes (1001 "Tunnel disconnected") and removes every
visitor whose attachment subdomain is s; on *error* it deletes s and
rejects (502) and removes the pending requests of s, but leaves the visitor
table untouched and closes only the errored agent socket (1011). -/
theorem c3_agent_close_error_cleanup (st : MuxState) (sock : Nat) (sub : String)
    (code : Nat) (reason : String) :
    lookupKey (webSocketCloseTunnel st sock sub code reason).1.tunnels sub = none ∧
    (∀ e ∈ st.pendingRequests, e.2 = sub →
      Output.resolveHTTP e.1 Resolution.tunnelClosed502 ∈
        (webSocketCloseTunnel st sock sub code reason).2) ∧
    (∀ e ∈ (webSocketCloseTunnel st sock sub code reason).1.pendingRequests,
      e.2 ≠ sub) ∧
    (∀ e ∈ st.pendingRequests, e.2 ≠ sub →
      e ∈ (webSocketCloseTunnel st sock sub code reason).1.pendingRequests) ∧
    (∀ v ∈ st.visitorSockets, v.2 = sub →
      Output.closeVisitor v.1 1001 "Tunnel disconnected" ∈
        (webSocketCloseTunnel st sock sub code reason).2) ∧
    (∀ v ∈ (webSocketCloseTunnel st sock sub code reason).1.visitorSockets,
      v.2 ≠ sub) ∧
    (∀ v ∈ st.visitorSockets, v.2 ≠ sub →
      v ∈ (webSocketCloseTunnel st sock sub code reason).1.visitorSockets) ∧
    lookupKey (webSocketErrorTunnel st sock sub).1.tunnels sub = none ∧
    (∀ e ∈ st.pendingRequests, e.2 = sub →
      Output.resolveHTTP e.1 Resolution.wsError502 ∈
        (webSocketErrorTunnel st sock sub).2) ∧
    (∀ e ∈ (webSocketErrorTunnel st sock sub).1.pendingRequests, e.2 ≠ sub) ∧
    (webSocketErrorTunnel st sock sub).1.visitorSockets = st.visitorSockets ∧
    (∀ sess c r, Output.closeVisitor sess c r ∉ (webSocketErrorTunnel st sock sub).2) := by
  refine ⟨?_, ?_, ?_, ?_, ?_, ?_, ?_, ?_, ?_, ?_, rfl, ?_⟩
  · exact lookupKey_eraseKey_self _ _
  · intro e he hsub
    exact List.mem_cons_of_mem _ (List.mem_append_left _
      (List.mem_map_of_mem _ (List.mem_filter.mpr ⟨he, by simp [hsub]⟩)))
  · intro e he
    have := (List.mem_filter.mp he).2
    simpa [bne] using this
  · intro e he hne
    exact List.mem_filter.mpr ⟨he, by simpa [bne] using hne⟩
  · intro v hv hsub
    exact List.mem_cons_of_mem _ (List.mem_append_right _
      (List.mem_map_of_mem _ (List.mem_filter.mpr ⟨hv, by simp [hsub]⟩)))
  · intro v hv
    have := (List.mem_filter.mp hv).2
    simpa [bne] using this
  · intro v hv hne
    exact List.mem_filter.mpr ⟨hv, by simpa [bne] using hne⟩
  · exact lookupKey_eraseKey_self _ _
  · intro e he hsub
    exact List.mem_append_left _
      (List.mem_map_of_mem _ (List.mem_filter.mpr ⟨he, by simp [hsub]⟩))
  · intro e he
    have := (List.mem_filter.mp he).2
    simpa [bne] using this
  · intro sess c r hmem
    simp only [webSocketErrorTunnel, List.mem_append] at hmem
    rcases hmem with hmem | hmem
    · rcases List.mem_map.mp hmem with ⟨e, _, heq⟩
      cases heq
    · simp at hmem

/-- Witness for C3's amended statement at a concrete state. -/
theorem c3_agent_close_error_cleanup_witness :
    Output.closeVisitor "v1" 1001 "Tunnel disconnected" ∈
      (webSocketCloseTunnel
        { tunnels := [("s", 7)], visitorSockets := [("v1", "s"), ("v2", "t")],
          pendingRequests := [("r1", "s")], timers := ["r1"] } 7 "s" 1005 "gone").2 ∧
    (webSocketErrorTunnel
        { tunnels := [("s", 7)], visitorSockets := [("v1", "s"), ("v2", "t")],
          pendingRequests := [("r1", "s")], timers := ["r1"] } 7 "s").1.visitorSockets =
      [("v1", "s"), ("v2", "t")] := by
  have h := c3_agent_close_error_cleanup
    { tunnels := [("s", 7)], visitorSockets := [("v1", "s"), ("v2", "t")],
      pendingRequests := [("r1", "s")], timers := ["r1"] } 7 "s" 1005 "gone"
  exact ⟨h.2.2.2.2.1 ("v1", "s") (by simp) rfl, h.2.2.2.2.2.2.2.2.2.2.1⟩

/-! ### One-shot resolution of pending requests (C1) -/

/-- Is this output a promise settlement for the given request id? -/
def isResolveFor (id : String) : Output → Bool
  | Output.resolveHTTP j _ => j == id
  | _ => false

/-- Number of promise settlements for one request id in an output list. -/
def resolveCount (id : String) (outs : List Output) : Nat :=
  (outs.filter (isResolveFor id)).length

/-- Does this event register a fresh pending entry under the given id?
(`crypto.randomUUID` never re-mints an id in use.) -/
def registersId (id : String) : MuxEvent → Bool
  | MuxEvent.visitorHTTP j _ _ => j == id
  | _ => false

/-- A request id with no pending entry and no armed timer. -/
def idleId (id : String) (st : MuxState) : Prop :=
  lookupKey st.pendingRequests id = none ∧ id ∉ st.timers

theorem resolveCount_append (id : String) (a b : List Output) :
    resolveCount id (a ++ b) = resolveCount id a + resolveCount id b := by
  simp [resolveCount, List.filter_append]

theorem resolveCount_map_resolve (id : String) (l : List (String × String))
    (r : Resolution) :
    resolveCount id (l.map (fun e => Output.resolveHTTP e.1 r)) = countKey l id := by
  induction l with
  | nil => rfl
  | cons e rest ih =>
    by_cases he : e.1 = id
    · simp only [resolveCount, countKey, List.map_cons, List.filter_cons] at *
      simp [isResolveFor, he, ih]
    · simp only [resolveCount, countKey, List.map_cons, List.filter_cons] at *
      simp [isResolveFor, he, ih]

theorem resolveCount_closeVisitor_map (id : String) (l : List (String × String))
    (c : Nat) (r : String) :
    resolveCount id (l.map (fun v => Output.closeVisitor v.1 c r)) = 0 := by
  induction l with
  | nil => rfl
  | cons e rest ih =>
    simp only [resolveCount, List.map_cons, List.filter_cons] at *
    simp [isResolveFor, ih]

theorem countKey_eq_zero_iff {α : Type} (l : List (String × α)) (k : String) :
    countKey l k = 0 ↔ ∀ e ∈ l, e.1 ≠ k := by
  rw [countKey, List.length_eq_zero, List.filter_eq_nil]
  constructor
  · intro h e he heq
    exact h e he (by simp [heq])
  · intro h e he
    simp [h e he]

theorem countKey_le_one_of_nodup {α : Type} (l : List (String × α)) (k : String)
    (h : (l.map Prod.fst).Nodup) : countKey l k ≤ 1 := by
  induction l with
  | nil => simp [countKey]
  | cons e rest ih =>
    have hx : e.1 ∉ rest.map Prod.fst := (List.nodup_cons.mp (by simpa using h)).1
    have hrest : (rest.map Prod.fst).Nodup := (List.nodup_cons.mp (by simpa using h)).2
    rw [countKey, List.filter_cons]
    by_cases he : e.1 = k
    · have hz : countKey rest k = 0 := by
        rw [countKey_eq_zero_iff]
        intro x hxm heq
        have hm2 : x.1 ∈ rest.map Prod.fst := List.mem_map_of_mem _ hxm
        rw [heq, ← he] at hm2
        exact hx hm2
      have hz2 : (rest.filter (fun e => e.1 == k)).length = 0 := hz
      rw [if_pos (by simp [he])]
      simp only [List.length_cons]
      omega
    · rw [if_neg (by simp [he])]
      exact ih hrest

theorem countKey_filter_le {α : Type} (l : List (String × α)) (k : String)
    (p : String × α → Bool) : countKey (l.filter p) k ≤ countKey l k :=
  List.Sublist.length_le (List.Sublist.filter _ (List.filter_sublist l))

theorem resolveCount_cons_other (id : String) (o : Output) (rest : List Output)
    (h : isResolveFor id o = false) :
    resolveCount id (o :: rest) = resolveCount id rest := by
  simp [resolveCount, List.filter_cons, h]

theorem resolveCount_single_resolve (id j : String) (r : Resolution) :
    resolveCount id [Output.resolveHTTP j r] = if j = id then 1 else 0 := by
  by_cases h : j = id
  · simp [resolveCount, List.filter_cons, isResolveFor, h]
  · simp [resolveCount, List.filter_cons, isResolveFor, h]

theorem countKey_pos_exists {α : Type} (l : List (String × α)) (k : String)
    (h : 1 ≤ countKey l k) : ∃ e ∈ l, e.1 = k := by
  rw [countKey] at h
  have hne : (l.filter (fun e => e.1 == k)) ≠ [] := by
    intro hnil
    rw [hnil] at h
    cases h
  obtain ⟨e, he⟩ := List.exists_mem_of_ne_nil _ hne
  refine ⟨e, List.mem_of_mem_filter he, ?_⟩
  simpa using (List.mem_filter.mp he).2

/-- Pending-request keys stay duplicate-free under every multiplexer step. -/
theorem muxStep_nodupKeys (st : MuxState) (e : MuxEvent)
    (h : (st.pendingRequests.map Prod.fst).Nodup) :
    ((muxStep st e).1.pendingRequests.map Prod.fst).Nodup := by
  cases e with
  | httpResponseMsg id =>
    cases hm : lookupKey st.pendingRequests id with
    | some sub => simpa [muxStep, handleHTTPResponse, hm] using nodupKeys_eraseKey _ _ h
    | none => simpa [muxStep, handleHTTPResponse, hm] using h
  | wsFrameMsg id =>
    cases hm : lookupKey st.visitorSockets id with
    | some sub => simpa [muxStep, handleWSFrame, hm] using h
    | none => simpa [muxStep, handleWSFrame, hm] using h
  | wsCloseMsg id code reason =>
    cases hm : lookupKey st.visitorSockets id with
    | some sub => simpa [muxStep, handleWSCloseMsg, hm] using h
    | none => simpa [muxStep, handleWSCloseMsg, hm] using h
  | timerFires id =>
    by_cases hm : id ∈ st.timers
    · simpa [muxStep, timeoutFire, hm] using nodupKeys_eraseKey _ _ h
    · simpa [muxStep, timeoutFire, hm] using h
  | visitorHTTP id sub sendOk =>
    cases sendOk with
    | true => simpa [muxStep, registerPending] using nodupKeys_setKey _ _ _ h
    | false =>
      simpa [muxStep, registerPending] using
        nodupKeys_eraseKey _ _ (nodupKeys_setKey _ _ _ h)
  | agentClosed sock sub code reason =>
    simp only [muxStep, webSocketCloseTunnel]
    exact h.sublist ((List.filter_sublist _).map Prod.fst)
  | agentErrored sock sub =>
    simp only [muxStep, webSocketErrorTunnel]
    exact h.sublist ((List.filter_sublist _).map Prod.fst)
  | visitorClosed sock sess sub code reason =>
    cases hm : lookupKey st.tunnels sub with
    | some s => simpa [muxStep, webSocketCloseVisitor, hm] using h
    | none => simpa [muxStep, webSocketCloseVisitor, hm] using h
  | visitorErrored sock sess =>
    simpa [muxStep, webSocketErrorVisitor] using h

/-- Once a request id is settled (no pending entry, no armed timer), no
step that does not re-register it can settle it again or revive it. -/
theorem muxStep_idle (st : MuxState) (e : MuxEvent) (id : String)
    (hreg : registersId id e = false) (hidle : idleId id st) :
    resolveCount id (muxStep st e).2 = 0 ∧ idleId id (muxStep st e).1 := by
  obtain ⟨hpend, htim⟩ := hidle
  have hnotimF : ∀ (p : String → Bool), id ∉ st.timers.filter p :=
    fun p hmem => htim (List.mem_of_mem_filter hmem)
  cases e with
  | httpResponseMsg j =>
    cases hm : lookupKey st.pendingRequests j with
    | none =>
      refine ⟨by simp [muxStep, handleHTTPResponse, hm, resolveCount], ?_, ?_⟩
      · simpa [muxStep, handleHTTPResponse, hm] using hpend
      · simpa [muxStep, handleHTTPResponse, hm] using htim
    | some sub =>
      have hji : j ≠ id := by
        intro hji
        rw [hji, hpend] at hm
        cases hm
      refine ⟨?_, ?_, ?_⟩
      · simp [muxStep, handleHTTPResponse, hm, resolveCount_single_resolve, hji]
      · simp only [muxStep, handleHTTPResponse, hm]
        rw [lookupKey_eraseKey_ne _ _ _ (Ne.symm hji)]
        exact hpend
      · simp only [muxStep, handleHTTPResponse, hm]
        exact hnotimF _
  | wsFrameMsg j =>
    cases hm : lookupKey st.visitorSockets j with
    | none =>
      refine ⟨by simp [muxStep, handleWSFrame, hm, resolveCount], ?_, ?_⟩
      · simpa [muxStep, handleWSFrame, hm] using hpend
      · simpa [muxStep, handleWSFrame, hm] using htim
    | some sub =>
      refine ⟨by simp [muxStep, handleWSFrame, hm, resolveCount, isResolveFor], ?_, ?_⟩
      · simpa [muxStep, handleWSFrame, hm] using hpend
      · simpa [muxStep, handleWSFrame, hm] using htim
  | wsCloseMsg j code reason =>
    cases hm : lookupKey st.visitorSockets j with
    | none =>
      refine ⟨by simp [muxStep, handleWSCloseMsg, hm, resolveCount], ?_, ?_⟩
      · simpa [muxStep, handleWSCloseMsg, hm] using hpend
      · simpa [muxStep, handleWSCloseMsg, hm] using htim
    | some sub =>
      refine ⟨by simp [muxStep, handleWSCloseMsg, hm, resolveCount, isResolveFor], ?_, ?_⟩
      · simpa [muxStep, handleWSCloseMsg, hm] using hpend
      · simpa [muxStep, handleWSCloseMsg, hm] using htim
  | timerFires j =>
    by_cases hm : j ∈ st.timers
    · have hji : j ≠ id := fun hji => htim (hji ▸ hm)
      refine ⟨?_, ?_, ?_⟩
      · simp [muxStep, timeoutFire, hm, resolveCount_single_resolve, hji]
      · simp only [muxStep, timeoutFire]
        rw [if_pos (by simpa using hm)]
        simp only
        rw [lookupKey_eraseKey_ne _ _ _ (Ne.symm hji)]
        exact hpend
      · simp only [muxStep, timeoutFire]
        rw [if_pos (by simpa using hm)]
        exact hnotimF _
    · refine ⟨?_, ?_, ?_⟩
      · simp [muxStep, timeoutFire, hm, resolveCount]
      · simpa [muxStep, timeoutFire, hm] using hpend
      · simpa [muxStep, timeoutFire, hm] using htim
  | visitorHTTP j sub sendOk =>
    have hji : j ≠ id := by simpa [registersId] using hreg
    cases sendOk with
    | true =>
      refine ⟨by simp [muxStep, registerPending, resolveCount], ?_, ?_⟩
      · simp only [muxStep, registerPending, if_pos]
        rw [lookupKey_setKey_ne _ _ _ _ (Ne.symm hji)]
        exact hpend
      · simp only [muxStep, registerPending, if_pos]
        intro hmem
        rcases List.mem_append.mp hmem with hmem | hmem
        · exact htim hmem
        · exact (Ne.symm hji) (List.mem_singleton.mp hmem)
    | false =>
      refine ⟨?_, ?_, ?_⟩
      · simp [muxStep, registerPending, resolveCount_single_resolve, hji]
      · simp only [muxStep, registerPending]
        rw [if_neg (by simp)]
        simp only
        rw [lookupKey_eraseKey_ne _ _ _ (Ne.symm hji),
           lookupKey_setKey_ne _ _ _ _ (Ne.symm hji)]
        exact hpend
      · simp only [muxStep, registerPending]
        rw [if_neg (by simp)]
        simp only
        intro hmem
        rcases List.mem_append.mp (List.mem_of_mem_filter hmem) with hmem2 | hmem2
        · exact htim hmem2
        · exact (Ne.symm hji) (List.mem_singleton.mp hmem2)
  | agentClosed sock sub code reason =>
    have hcount : countKey (st.pendingRequests.filter (fun e => e.2 == sub)) id = 0 := by
      rw [countKey_eq_zero_iff]
      intro x hx heq
      exact ((lookupKey_none_iff _ _).mp hpend) x (List.mem_of_mem_filter hx) heq
    refine ⟨?_, ?_, ?_⟩
    · simp only [muxStep, webSocketCloseTunnel]
      rw [resolveCount_append,
        resolveCount_cons_other id (Output.closeSocket sock code reason) _ rfl,
        resolveCount_map_resolve, resolveCount_closeVisitor_map, hcount]
    · simp only [muxStep, webSocketCloseTunnel]
      exact lookupKey_filter_none _ _ _ hpend
    · simp only [muxStep, webSocketCloseTunnel]
      exact hnotimF _
  | agentErrored sock sub =>
    have hcount : countKey (st.pendingRequests.filter (fun e => e.2 == sub)) id = 0 := by
      rw [countKey_eq_zero_iff]
      intro x hx heq
      exact ((lookupKey_none_iff _ _).mp hpend) x (List.mem_of_mem_filter hx) heq
    refine ⟨?_, ?_, ?_⟩
    · simp only [muxStep, webSocketErrorTunnel]
      rw [resolveCount_append, resolveCount_map_resolve, hcount]
      rfl
    · simp only [muxStep, webSocketErrorTunnel]
      exact lookupKey_filter_none _ _ _ hpend
    · simp only [muxStep, webSocketErrorTunnel]
      exact hnotimF _
  | visitorClosed sock sess sub code reason =>
    cases hm : lookupKey st.tunnels sub with
    | none =>
      refine ⟨by simp [muxStep, webSocketCloseVisitor, hm, resolveCount, isResolveFor], ?_, ?_⟩
      · simpa [muxStep, webSocketCloseVisitor, hm] using hpend
      · simpa [muxStep, webSocketCloseVisitor, hm] using htim
    | some s =>
      refine ⟨by simp [muxStep, webSocketCloseVisitor, hm, resolveCount, isResolveFor], ?_, ?_⟩
      · simpa [muxStep, webSocketCloseVisitor, hm] using hpend
      · simpa [muxStep, webSocketCloseVisitor, hm] using htim
  | visitorErrored sock sess =>
    refine ⟨by simp [muxStep, webSocketErrorVisitor, resolveCount, isResolveFor], ?_, ?_⟩
    · simpa [muxStep, webSocketErrorVisitor] using hpend
    · simpa [muxStep, webSocketErrorVisitor] using htim

theorem notMem_filter_bne (l : List String) (a : String) :
    a ∉ l.filter (fun t => t != a) := by
  intro hmem
  have hc := (List.mem_filter.mp hmem).2
  simp at hc

theorem notMem_filter_contains (l : List String) (ids : List String) (a : String)
    (h : a ∈ ids) : a ∉ l.filter (fun t => !(ids.contains t)) := by
  intro hmem
  have hc := (List.mem_filter.mp hmem).2
  simp [List.contains, List.elem_eq_mem, h] at hc

/-- Every multiplexer step settles a given request id at most once, and a
step that settles it leaves it settled. -/
theorem muxStep_le_one (st : MuxState) (e : MuxEvent) (id : String)
    (hnodup : (st.pendingRequests.map Prod.fst).Nodup)
    (hreg : registersId id e = false) :
    resolveCount id (muxStep st e).2 ≤ 1 ∧
    (1 ≤ resolveCount id (muxStep st e).2 → idleId id (muxStep st e).1) := by
  cases e with
  | httpResponseMsg j =>
    cases hm : lookupKey st.pendingRequests j with
    | none => simp [muxStep, handleHTTPResponse, hm, resolveCount]
    | some sub =>
      constructor
      · by_cases hji : j = id
        · subst hji
          simp [muxStep, handleHTTPResponse, hm, resolveCount_single_resolve]
        · simp [muxStep, handleHTTPResponse, hm, resolveCount_single_resolve, hji]
      · intro hge
        by_cases hji : j = id
        · subst hji
          constructor
          · simp only [muxStep, handleHTTPResponse, hm]
            exact lookupKey_eraseKey_self _ _
          · simp only [muxStep, handleHTTPResponse, hm]
            exact notMem_filter_bne _ _
        · exfalso
          rw [muxStep, handleHTTPResponse, hm] at hge
          simp only at hge
          rw [resolveCount_single_resolve] at hge
          rw [if_neg hji] at hge
          cases hge
  | wsFrameMsg j =>
    cases hm : lookupKey st.visitorSockets j with
    | none => simp [muxStep, handleWSFrame, hm, resolveCount]
    | some sub => simp [muxStep, handleWSFrame, hm, resolveCount, isResolveFor]
  | wsCloseMsg j code reason =>
    cases hm : lookupKey st.visitorSockets j with
    | none => simp [muxStep, handleWSCloseMsg, hm, resolveCount]
    | some sub => simp [muxStep, handleWSCloseMsg, hm, resolveCount, isResolveFor]
  | timerFires j =>
    by_cases hm : j ∈ st.timers
    · constructor
      · by_cases hji : j = id
        · subst hji
          simp [muxStep, timeoutFire, hm, resolveCount_single_resolve]
        · simp [muxStep, timeoutFire, hm, resolveCount_single_resolve, hji]
      · intro hge
        by_cases hji : j = id
        · subst hji
          constructor
          · simp only [muxStep, timeoutFire]
            rw [if_pos (by simpa using hm)]
            exact lookupKey_eraseKey_self _ _
          · simp only [muxStep, timeoutFire]
            rw [if_pos (by simpa using hm)]
            exact notMem_filter_bne _ _
        · exfalso
          rw [muxStep, timeoutFire, if_pos (by simpa using hm)] at hge
          simp only at hge
          rw [resolveCount_single_resolve, if_neg hji] at hge
          cases hge
    · simp [muxStep, timeoutFire, hm, resolveCount]
  | visitorHTTP j sub sendOk =>
    have hji : j ≠ id := by simpa [registersId] using hreg
    cases sendOk with
    | true => simp [muxStep, registerPending, resolveCount]
    | false =>
      constructor
      · simp [muxStep, registerPending, resolveCount_single_resolve, hji]
      · intro hge
        exfalso
        rw [muxStep, registerPending] at hge
        rw [if_neg (by simp)] at hge
        simp only at hge
        rw [resolveCount_single_resolve, if_neg hji] at hge
        cases hge
  | agentClosed sock sub code reason =>
    have hcount : resolveCount id (muxStep st (MuxEvent.agentClosed sock sub code reason)).2 =
        countKey (st.pendingRequests.filter (fun e => e.2 == sub)) id := by
      simp only [muxStep, webSocketCloseTunnel]
      rw [resolveCount_append,
        resolveCount_cons_other id (Output.closeSocket sock code reason) _ rfl,
        resolveCount_map_resolve, resolveCount_closeVisitor_map]
      omega
    constructor
    · rw [hcount]
      exact le_trans (countKey_filter_le _ _ _) (countKey_le_one_of_nodup _ _ hnodup)
    · intro hge
      rw [hcount] at hge
      obtain ⟨e0, he0, he0k⟩ := countKey_pos_exists _ _ hge
      have he0p : e0 ∈ st.pendingRequests := List.mem_of_mem_filter he0
      have he0v : e0.2 = sub := by simpa using (List.mem_filter.mp he0).2
      constructor
      · simp only [muxStep, webSocketCloseTunnel]
        rw [lookupKey_none_iff]
        intro x hx hxk
        have hxp : x ∈ st.pendingRequests := List.mem_of_mem_filter hx
        have hxv : x.2 ≠ sub := by
          have := (List.mem_filter.mp hx).2
          simpa [bne] using this
        have : x = e0 := nodupKeys_value_unique _ hnodup x e0 hxp he0p (by rw [hxk, he0k])
        exact hxv (this ▸ he0v)
      · simp only [muxStep, webSocketCloseTunnel]
        refine notMem_filter_contains _ _ _ ?_
        have hmm : e0.1 ∈ (st.pendingRequests.filter
            (fun e => e.2 == sub)).map (fun e => e.1) :=
          List.mem_map_of_mem _ he0
        rwa [he0k] at hmm
  | agentErrored sock sub =>
    have hcount : resolveCount id (muxStep st (MuxEvent.agentErrored sock sub)).2 =
        countKey (st.pendingRequests.filter (fun e => e.2 == sub)) id := by
      simp only [muxStep, webSocketErrorTunnel]
      rw [resolveCount_append, resolveCount_map_resolve]
      rfl
    constructor
    · rw [hcount]
      exact le_trans (countKey_filter_le _ _ _) (countKey_le_one_of_nodup _ _ hnodup)
    · intro hge
      rw [hcount] at hge
      obtain ⟨e0, he0, he0k⟩ := countKey_pos_exists _ _ hge
      have he0p : e0 ∈ st.pendingRequests := List.mem_of_mem_filter he0
      have he0v : e0.2 = sub := by simpa using (List.mem_filter.mp he0).2
      constructor
      · simp only [muxStep, webSocketErrorTunnel]
        rw [lookupKey_none_iff]
        intro x hx hxk
        have hxp : x ∈ st.pendingRequests := List.mem_of_mem_filter hx
        have hxv : x.2 ≠ sub := by
          have := (List.mem_filter.mp hx).2
          simpa [bne] using this
        have : x = e0 := nodupKeys_value_unique _ hnodup x e0 hxp he0p (by rw [hxk, he0k])
        exact hxv (this ▸ he0v)
      · simp only [muxStep, webSocketErrorTunnel]
        refine notMem_filter_contains _ _ _ ?_
        have hmm : e0.1 ∈ (st.pendingRequests.filter
            (fun e => e.2 == sub)).map (fun e => e.1) :=
          List.mem_map_of_mem _ he0
        rwa [he0k] at hmm
  | visitorClosed sock sess sub code reason =>
    cases hm : lookupKey st.tunnels sub with
    | none => simp [muxStep, webSocketCloseVisitor, hm, resolveCount, isResolveFor]
    | some s => simp [muxStep, webSocketCloseVisitor, hm, resolveCount, isResolveFor]
  | visitorErrored sock sess =>
    simp [muxStep, webSocketErrorVisitor, resolveCount, isResolveFor]

/-- A settled request id stays settled across a whole event trace that does
not re-register it, and receives no further resolution. -/
theorem muxRun_idle (st : MuxState) (events : List MuxEvent) (id : String)
    (hreg : ∀ e ∈ events, registersId id e = false) (hidle : idleId id st) :
    resolveCount id (muxRun st events).2 = 0 ∧ idleId id (muxRun st events).1 := by
  induction events generalizing st with
  | nil => exact ⟨rfl, hidle⟩
  | cons e es ih =>
    have h1 := muxStep_idle st e id (hreg e (List.mem_cons_self _ _)) hidle
    have h2 := ih (muxStep st e).1 (fun x hx => hreg x (List.mem_cons_of_mem _ hx)) h1.2
    refine ⟨?_, ?_⟩
    · simp only [muxRun]
      rw [resolveCount_append, h1.1, h2.1]
    · simpa only [muxRun] using h2.2

/-- Across any event trace that does not re-register the id, at most one
resolution is emitted for it. -/
theorem muxRun_atMostOnce (st : MuxState) (events : List MuxEvent) (id : String)
    (hnodup : (st.pendingRequests.map Prod.fst).Nodup)
    (hreg : ∀ e ∈ events, registersId id e = false) :
    resolveCount id (muxRun st events).2 ≤ 1 := by
  induction events generalizing st with
  | nil => simp [muxRun, resolveCount]
  | cons e es ih =>
    have hstep := muxStep_le_one st e id hnodup (hreg e (List.mem_cons_self _ _))
    have hnodup2 := muxStep_nodupKeys st e hnodup
    have hregs : ∀ x ∈ es, registersId id x = false :=
      fun x hx => hreg x (List.mem_cons_of_mem _ hx)
    by_cases hz : resolveCount id (muxStep st e).2 = 0
    · have hrest := ih (muxStep st e).1 hnodup2 hregs
      simp only [muxRun]
      rw [resolveCount_append, hz]
      simpa using hrest
    · have hge : 1 ≤ resolveCount id (muxStep st e).2 := Nat.one_le_iff_ne_zero.mpr hz
      have hidle := hstep.2 hge
      have hrest := muxRun_idle (muxStep st e).1 es id hregs hidle
      simp only [muxRun]
      rw [resolveCount_append, hrest.1]
      have := hstep.1
      omega

/-- C1: for every requestId in the edge pending-request table, exactly one
of http-response arrival, the 30 s timeout, tunnel close or error for its
subdomain, or a synchronous send failure settles the visitor's response and
removes the entry — each of those events, arriving while the entry is
pending, emits the single resolution and removes the entry, and across any
subsequent event trace at most one resolution is ever emitted for the id;
a later http-response carrying the same id is silently discarded, since its
lookup finds no pending entry. -/
theorem c1_pending_request_one_shot (st : MuxState) (id : String) :
    (lookupKey st.pendingRequests id = none →
      handleHTTPResponse st id = (st, [])) ∧
    (∀ sub, lookupKey st.pendingRequests id = some sub →
      (handleHTTPResponse st id).2 = [Output.resolveHTTP id Resolution.response] ∧
      lookupKey (handleHTTPResponse st id).1.pendingRequests id = none) ∧
    (id ∈ st.timers →
      (timeoutFire st id).2 = [Output.resolveHTTP id Resolution.timeout504] ∧
      lookupKey (timeoutFire st id).1.pendingRequests id = none ∧
      id ∉ (timeoutFire st id).1.timers) ∧
    (∀ sub sock code reason, (st.pendingRequests.map Prod.fst).Nodup →
      lookupKey st.pendingRequests id = some sub →
      Output.resolveHTTP id Resolution.tunnelClosed502 ∈
        (webSocketCloseTunnel st sock sub code reason).2 ∧
      lookupKey (webSocketCloseTunnel st sock sub code reason).1.pendingRequests id =
        none) ∧
    (∀ sub sock, (st.pendingRequests.map Prod.fst).Nodup →
      lookupKey st.pendingRequests id = some sub →
      Output.resolveHTTP id Resolution.wsError502 ∈
        (webSocketErrorTunnel st sock sub).2 ∧
      lookupKey (webSocketErrorTunnel st sock sub).1.pendingRequests id = none) ∧
    (∀ sub, (registerPending st id sub false).2 =
        [Output.resolveHTTP id Resolution.sendFail502] ∧
      lookupKey (registerPending st id sub false).1.pendingRequests id = none) ∧
    (∀ events, (st.pendingRequests.map Prod.fst).Nodup →
      (∀ e ∈ events, registersId id e = false) →
      resolveCount id (muxRun st events).2 ≤ 1) := by
  refine ⟨?_, ?_, ?_, ?_, ?_, ?_, ?_⟩
  · intro hm
    simp [handleHTTPResponse, hm]
  · intro sub hm
    refine ⟨by simp [handleHTTPResponse, hm], ?_⟩
    simp only [handleHTTPResponse, hm]
    exact lookupKey_eraseKey_self _ _
  · intro hm
    refine ⟨?_, ?_, ?_⟩
    · rw [timeoutFire, if_pos (by simpa using hm)]
    · rw [timeoutFire, if_pos (by simpa using hm)]
      exact lookupKey_eraseKey_self _ _
    · rw [timeoutFire, if_pos (by simpa using hm)]
      exact notMem_filter_bne _ _
  · intro sub sock code reason hnodup hm
    have hmem : (id, sub) ∈ st.pendingRequests := lookupKey_some_mem _ _ _ hm
    constructor
    · exact List.mem_append_left _ (List.mem_cons_of_mem _
        (List.mem_map_of_mem _ (List.mem_filter.mpr ⟨hmem, by simp⟩)))
    · simp only [webSocketCloseTunnel]
      rw [lookupKey_none_iff]
      intro x hx hxk
      have hxp : x ∈ st.pendingRequests := List.mem_of_mem_filter hx
      have hxv : x.2 ≠ sub := by
        have := (List.mem_filter.mp hx).2
        simpa [bne] using this
      have hxe : x = (id, sub) :=
        nodupKeys_value_unique _ hnodup x (id, sub) hxp hmem (by simpa using hxk)
      exact hxv (by rw [hxe])
  · intro sub sock hnodup hm
    have hmem : (id, sub) ∈ st.pendingRequests := lookupKey_some_mem _ _ _ hm
    constructor
    · exact List.mem_append_left _
        (List.mem_map_of_mem _ (List.mem_filter.mpr ⟨hmem, by simp⟩))
    · simp only [webSocketErrorTunnel]
      rw [lookupKey_none_iff]
      intro x hx hxk
      have hxp : x ∈ st.pendingRequests := List.mem_of_mem_filter hx
      have hxv : x.2 ≠ sub := by
        have := (List.mem_filter.mp hx).2
        simpa [bne] using this
      have hxe : x = (id, sub) :=
        nodupKeys_value_unique _ hnodup x (id, sub) hxp hmem (by simpa using hxk)
      exact hxv (by rw [hxe])
  · intro sub
    constructor
    · rw [registerPending, if_neg (by simp)]
    · rw [registerPending, if_neg (by simp)]
      simp only
      exact lookupKey_eraseKey_self _ _
  · intro events hnodup hreg
    exact muxRun_atMostOnce st events id hnodup hreg

/-- Witness for C1 at a concrete one-entry pending table. -/
theorem c1_pending_request_one_shot_witness :
    (handleHTTPResponse
      { tunnels := [("s", 7)], visitorSockets := [],
        pendingRequests := [("r1", "s")], timers := ["r1"] } "r1").2 =
      [Output.resolveHTTP "r1" Resolution.response] ∧
    resolveCount "r1"
      (muxRun
        { tunnels := [("s", 7)], visitorSockets := [],
          pendingRequests := [("r1", "s")], timers := ["r1"] }
        [MuxEvent.httpResponseMsg "r1", MuxEvent.timerFires "r1",
         MuxEvent.agentClosed 7 "s" 1001 "gone"]).2 ≤ 1 ∧
    handleHTTPResponse
      { tunnels := [("s", 7)], visitorSockets := [],
        pendingRequests := [("r1", "s")], timers := ["r1"] } "r2" =
      ({ tunnels := [("s", 7)], visitorSockets := [],
         pendingRequests := [("r1", "s")], timers := ["r1"] }, []) := by
  have h := c1_pending_request_one_shot
    { tunnels := [("s", 7)], visitorSockets := [],
      pendingRequests := [("r1", "s")], timers := ["r1"] } "r1"
  have h2 := c1_pending_request_one_shot
    { tunnels := [("s", 7)], visitorSockets := [],
      pendingRequests := [("r1", "s")], timers := ["r1"] } "r2"
  refine ⟨(h.2.1 "s" (by decide)).1, ?_, h2.1 (by decide)⟩
  exact h.2.2.2.2.2.2
    [MuxEvent.httpResponseMsg "r1", MuxEvent.timerFires "r1",
     MuxEvent.agentClosed 7 "s" 1001 "gone"]
    (by decide) (by decide)

/-! ## Subdomain allocation (worker index.ts) and the offensive-word
blocklist (middleware/subdomain-block.ts)

`Math.random()` draws are modelled as a stream `rng : Nat → Nat` of
naturals consumed at increasing offsets; `Math.floor(Math.random() *
chars.length)` is the draw modulo 36.  The D1 probe
`SELECT 1 FROM tunnels WHERE subdomain = ?` is the predicate `existing`. -/

def subdomainChars : List Char := "abcdefghijklmnopqrstuvwxyz0123456789".toList

/-- `generateSubdomain(length)`: `length` characters drawn from the
36-character lowercase-alphanumeric alphabet. -/
def generateSubdomain (length : Nat) (rng : Nat → Nat) (off : Nat) : List Char :=
  match length with
  | 0 => []
  | n + 1 => subdomainChars.getD (rng off % 36) 'a' :: generateSubdomain n rng (off + 1)

/-- The retry loop of `allocateSubdomain` (index.ts lines 25-51):
`maxRetries = 10`, starting length 4; on collision increment `retries` and,
once `retries` has reached 4, grow the length by one per retry; insert and
return on the first fresh subdomain, `none` when the budget is exhausted. -/
def allocateSubdomainAux (existing : List Char → Bool) (rng : Nat → Nat)
    (off retries subdomainLength : Nat) : Option (List Char) :=
  if h : retries < 10 then
    let s := generateSubdomain subdomainLength rng off
    if existing s then
      allocateSubdomainAux existing rng (off + subdomainLength) (retries + 1)
        (if 4 ≤ retries + 1 then subdomainLength + 1 else subdomainLength)
    else some s
  else none
termination_by 10 - retries
decreasing_by omega

def allocateSubdomain (existing : List Char → Bool) (rng : Nat → Nat) :
    Option (List Char) :=
  allocateSubdomainAux existing rng 0 0 4

/-- Instrumented variant of the retry loop that also logs every generated
attempt; `allocateSubdomainAuxT_fst` proves it agrees with the plain loop
on the result. -/
def allocateSubdomainAuxT (existing : List Char → Bool) (rng : Nat → Nat)
    (off retries subdomainLength : Nat) : Option (List Char) × List (List Char) :=
  if h : retries < 10 then
    let s := generateSubdomain subdomainLength rng off
    if existing s then
      let r := allocateSubdomainAuxT existing rng (off + subdomainLength) (retries + 1)
        (if 4 ≤ retries + 1 then subdomainLength + 1 else subdomainLength)
      (r.1, s :: r.2)
    else (some s, [s])
  else (none, [])
termination_by 10 - retries
decreasing_by omega

def allocateSubdomainT (existing : List Char → Bool) (rng : Nat → Nat) :
    Option (List Char) × List (List Char) :=
  allocateSubdomainAuxT existing rng 0 0 4

theorem allocateSubdomainAuxT_fst (existing : List Char → Bool) (rng : Nat → Nat)
    (off retries subdomainLength : Nat) :
    allocateSubdomainAux existing rng off retries subdomainLength =
      (allocateSubdomainAuxT existing rng off retries subdomainLength).1 := by
  generalize hfuel : 10 - retries = n
  induction n generalizing off retries subdomainLength with
  | zero =>
    have h : ¬ retries < 10 := by omega
    rw [allocateSubdomainAux, allocateSubdomainAuxT, dif_neg h, dif_neg h]
  | succ n ih =>
    have h : retries < 10 := by omega
    rw [allocateSubdomainAux, allocateSubdomainAuxT, dif_pos h, dif_pos h]
    by_cases hex : existing (generateSubdomain subdomainLength rng off)
    · simp only [if_pos hex]
      exact ih _ _ _ (by omega)
    · simp only [if_neg hex]

theorem generateSubdomain_length (length : Nat) (rng : Nat → Nat) (off : Nat) :
    (generateSubdomain length rng off).length = length := by
  induction length generalizing off with
  | zero => rfl
  | succ n ih => simp [generateSubdomain, ih]

theorem subdomainChars_getD_mem (n : Nat) :
    subdomainChars.getD (n % 36) 'a' ∈ subdomainChars := by
  have h36 : subdomainChars.length = 36 := by decide
  have h : n % 36 < subdomainChars.length := by omega
  rw [List.getD_eq_getElem?_getD, List.getElem?_eq_getElem h]
  exact List.getElem_mem _

theorem generateSubdomain_mem (length : Nat) (rng : Nat → Nat) (off : Nat) :
    ∀ c ∈ generateSubdomain length rng off, c ∈ subdomainChars := by
  induction length generalizing off with
  | zero => intro c hc; cases hc
  | succ n ih =>
    intro c hc
    rcases List.mem_cons.mp hc with rfl | hc
    · exact subdomainChars_getD_mem _
    · exact ih (off + 1) c hc

/-- The per-port allocation branch of `app.post("/api/register")` for a port
without an existing row (index.ts lines 93-96). -/
inductive RegisterPortResult where
  | ok (subdomain : List Char)
  | err (status : Nat) (msg : String)
deriving DecidableEq

def registerPort (existing : List Char → Bool) (rng : Nat → Nat) :
    RegisterPortResult :=
  match allocateSubdomain existing rng with
  | none => RegisterPortResult.err 500 "Failed to allocate subdomain"
  | some s => RegisterPortResult.ok s

/-- C6: allocateSubdomain draws random lowercase-alphanumeric subdomains
starting at length 4 and retries at most 10 times in total on collision;
each generated string has exactly the scheduled length over the alphabet;
when every try collides the tried lengths are 4,4,4,4,5,6,7,8,9,10 (the
length grows by one per retry after the 4th failed try) and the result is
`none`, upon which /api/register responds 500 "Failed to allocate
subdomain"; a fresh first draw is returned as-is. -/
theorem c6_allocate_retry_schedule :
    (∀ length rng off, (generateSubdomain length rng off).length = length ∧
      ∀ c ∈ generateSubdomain length rng off, c ∈ subdomainChars) ∧
    (∀ existing rng, allocateSubdomain existing rng =
      (allocateSubdomainT existing rng).1) ∧
    (∀ rng : Nat → Nat, (allocateSubdomainT (fun _ => true) rng).1 = none ∧
      (allocateSubdomainT (fun _ => true) rng).2.map List.length =
        [4, 4, 4, 4, 5, 6, 7, 8, 9, 10]) ∧
    (∀ existing rng, existing (generateSubdomain 4 rng 0) = false →
      allocateSubdomain existing rng = some (generateSubdomain 4 rng 0)) ∧
    (∀ existing rng, allocateSubdomain existing rng = none →
      registerPort existing rng = RegisterPortResult.err 500
        "Failed to allocate subdomain") := by
  refine ⟨?_, ?_, ?_, ?_, ?_⟩
  · exact fun length rng off =>
      ⟨generateSubdomain_length length rng off, generateSubdomain_mem length rng off⟩
  · exact fun existing rng => allocateSubdomainAuxT_fst existing rng 0 0 4
  · intro rng
    constructor
    · simp [allocateSubdomainT, allocateSubdomainAuxT]
    · simp [allocateSubdomainT, allocateSubdomainAuxT, generateSubdomain_length]
  · intro existing rng h
    rw [allocateSubdomain, allocateSubdomainAux]
    simp [h]
  · intro existing rng h
    simp [registerPort, h]

/-- Witness for C6: with an always-colliding table every allocation fails
after the 4,4,4,4,5,6,7,8,9,10 schedule and register responds 500. -/
theorem c6_allocate_retry_schedule_witness :
    (allocateSubdomainT (fun _ => true) (fun _ => 0)).1 = none ∧
    registerPort (fun _ => true) (fun _ => 0) =
      RegisterPortResult.err 500 "Failed to allocate subdomain" := by
  have h := c6_allocate_retry_schedule
  have h1 := (h.2.2.1 (fun _ => 0)).1
  refine ⟨h1, ?_⟩
  exact h.2.2.2.2 (fun _ => true) (fun _ => 0) ((h.2.1 (fun _ => true) (fun _ => 0)).trans h1)

/-! ### The offensive-word blocklist -/

/-- `BLOCKED_PATTERNS` of middleware/subdomain-block.ts. -/
def BLOCKED_PATTERNS : List (List Char) :=
  ["xxx", "sex", "s3x", "s€x", "porn", "p0rn", "prn",
   "fuck", "fck", "fuk", "f4ck", "fvck",
   "suck", "suk", "s0ck", "sck",
   "shit", "sh1t", "sht",
   "ass", "a55", "azz",
   "dick", "d1ck", "dik",
   "cock", "c0ck", "cok",
   "cunt", "cvnt", "c0nt",
   "slut", "sl0t", "s1ut",
   "whore", "wh0re", "h0re",
   "bitch", "b1tch", "btch",
   "nigger", "n1gger", "nigg",
   "rape", "r4pe",
   "anal", "an4l",
   "cum", "c0m",
   "nude", "nud3",
   "hentai", "h3ntai",
   "milf", "m1lf",
   "dildo", "d1ldo",
   "penis", "pen1s",
   "vagina", "vag1na",
   "boob", "b00b",
   "tits", "t1ts"].map String.toList

def listStartsWith : List Char → List Char → Bool
  | _, [] => true
  | [], _ :: _ => false
  | c :: rest, p :: prest => c == p && listStartsWith rest prest

/-- Contiguous-substring test, the meaning of the escaped-alternation regex
`blockedRegex`. -/
def containsSeq (l pat : List Char) : Bool :=
  match l with
  | [] => pat.isEmpty
  | _ :: rest => listStartsWith l pat || containsSeq rest pat

/-- `isSubdomainBlocked`: does the subdomain contain any blocked pattern
(case-insensitively — the regex carries the `i` flag)? -/
def isSubdomainBlocked (subdomain : List Char) : Bool :=
  BLOCKED_PATTERNS.any (fun p => containsSeq (subdomain.map asciiLower) p)

/-- C7: the code violates the claim.  `allocateSubdomain` never consults
`isSubdomainBlocked` (despite subdomain-block.ts's own comment "Use this in
allocateSubdomain() to reject offensive random subdomains"): with an empty
tunnels table and the random draws 18,29,23,0 the allocator returns
"s3xa", for which `isSubdomainBlocked` is true. -/
theorem c7_allocator_ignores_blocklist :
    allocateSubdomain (fun _ => false) (fun n => [18, 29, 23, 0].getD n 0) =
      some "s3xa".toList ∧
    isSubdomainBlocked "s3xa".toList = true := by
  constructor
  · rw [allocateSubdomain, allocateSubdomainAux]
    norm_num
    decide
  · decide

/-! ## The agent's local-WebSocket relay read loop (wsrelay.go) -/

/-- The error a local `ReadMessage` surfaces: a close frame from the peer
(gorilla's `*websocket.CloseError`, whose code is 1005
`CloseNoStatusReceived` when the peer sent no status), or any other read
error. -/
inductive WSReadError where
  | closeError (code : Nat) (text : String)
  | otherError (msg : String)
deriving DecidableEq

structure WSCloseMsg where
  type : String
  id : String
  code : Nat
  reason : String
deriving DecidableEq

/-- The ws-close message `readLoop` emits when the local read fails
(wsrelay.go lines 92-104): `closeCode` starts as
`websocket.CloseNormalClosure` (1000) with an empty reason, overridden by
the close error's code and text when the error is a `*websocket.CloseError`. -/
def readLoopCloseMsg (sessionID : String) (err : WSReadError) : WSCloseMsg :=
  match err with
  | WSReadError.closeError c t =>
      { type := typeWSClose, id := sessionID, code := c, reason := t }
  | WSReadError.otherError _ =>
      { type := typeWSClose, id := sessionID, code := 1000, reason := "" }

/-- C8 counterexample: a read error that carries no close code produces a
ws-close with code 1000, not 1005 as the claim states. -/
theorem c8_counterexample :
    (readLoopCloseMsg "sess1" (WSReadError.otherError "unexpected EOF")).code = 1000 ∧
    (readLoopCloseMsg "sess1" (WSReadError.otherError "unexpected EOF")).code ≠ 1005 := by
  decide

/-- C8 (amended): on a local read error the relay emits a ws-close carrying
the local close code and reason when the error carries one (a peer close
without status surfaces as a CloseError with code 1005 and is forwarded
as-is), and code 1000 (normal closure) with an empty reason when the error
carries no close code. -/
theorem c8_readloop_close_codes (sessionID : String) :
    (∀ c t, readLoopCloseMsg sessionID (WSReadError.closeError c t) =
      { type := typeWSClose, id := sessionID, code := c, reason := t }) ∧
    (∀ m, readLoopCloseMsg sessionID (WSReadError.otherError m) =
      { type := typeWSClose, id := sessionID, code := 1000, reason := "" }) :=
  ⟨fun _ _ => rfl, fun _ => rfl⟩

end ProdBd
